import Mathlib

/-!
Verification of the collaborative-canvas server core.

Shallow embedding of:
  * `server/drawing-state.js` (`DrawingStateManager`): per-room canvas
    snapshot history with undo/redo, raw drawing log, capped history;
  * `server/rooms.js` (`RoomManager`): room membership bookkeeping;
  * `server/server.js`: the socket event handlers (Event Router), modelled
    as a pure step function from an inbound event to the updated room
    drawing state plus the list of outbound emissions with their audience.

Modelling conventions: JavaScript array indices that can be `-1` are kept
as `Int`; `Array.prototype.slice(0, e)` is modelled by `jsSliceEnd`
(including the negative-end clamping JavaScript performs); `Map` objects
are modelled as association lists keyed by `String` (insertion order
preserved, keys unique as in `Map`); `Date.now()` and the random drawing
id are threaded in as explicit parameters; `null`/`undefined` payload
fields are `Option` values, and JavaScript truthiness of a string field
(`if (data.canvasState)`) is being a `some` of a non-empty string.
-/

/-- One entry of a room's snapshot history: `{state, timestamp}` pushed by
`setCanvasState`, or `{state: null, timestamp, type: 'clear'}` pushed by
`clearCanvas`.  `etype` models the optional `type` field. -/
structure HistoryEntry where
  state : Option String
  timestamp : Nat
  etype : Option String
deriving DecidableEq

/-- One stored drawing operation: the router passes `{userId, path,
timestamp}` and `addDrawing` spreads it and adds an `id` and timestamp. -/
structure Drawing where
  userId : String
  path : Option (List String)
  id : String
  timestamp : Nat
deriving DecidableEq

/-- The per-room record created by `DrawingStateManager.initRoom`. -/
structure RoomState where
  canvasState : Option String
  drawings : List Drawing
  history : List HistoryEntry
  historyIndex : Int
  createdAt : Nat
deriving DecidableEq

/-- `this.maxHistorySize = 100` in the `DrawingStateManager` constructor. -/
def maxHistorySize : Nat := 100

/-- The fresh room record made by `initRoom`: no canvas state, empty
drawings and history, `historyIndex = -1`. -/
def initRoomState (now : Nat) : RoomState :=
  { canvasState := none, drawings := [], history := [], historyIndex := -1,
    createdAt := now }

/-- The history entry pushed by `setCanvasState`. -/
def newEntry (d : String) (now : Nat) : HistoryEntry :=
  { state := some d, timestamp := now, etype := none }

/-- The clear-marker history entry pushed by `clearCanvas`. -/
def clearEntry (now : Nat) : HistoryEntry :=
  { state := none, timestamp := now, etype := some "clear" }

/-- JavaScript `l.slice(0, e)`: a negative end counts from the end of the
array, and the result is clamped to the available elements. -/
def jsSliceEnd {α : Type} (l : List α) (e : Int) : List α :=
  if e < 0 then l.take ((l.length : Int) + e).toNat else l.take e.toNat

/-- The redo-branch prune at the start of `setCanvasState`:
`if (room.historyIndex < room.history.length - 1) room.history =
room.history.slice(0, room.historyIndex + 1)`. -/
def pruneRedo (s : RoomState) : List HistoryEntry :=
  if s.historyIndex < (s.history.length : Int) - 1 then
    jsSliceEnd s.history (s.historyIndex + 1)
  else
    s.history

/-- `DrawingStateManager.setCanvasState` on the room record: prune the redo
branch, push `{state, timestamp}`, increment the index, then if the history
exceeds `maxHistorySize` shift off the oldest entry and decrement the
index; finally store the new canvas state. -/
def RoomState.setCanvasState (s : RoomState) (d : String) (now : Nat) :
    RoomState :=
  if (pruneRedo s ++ [newEntry d now]).length > maxHistorySize then
    { s with history := (pruneRedo s ++ [newEntry d now]).tail,
             historyIndex := s.historyIndex + 1 - 1,
             canvasState := some d }
  else
    { s with history := pruneRedo s ++ [newEntry d now],
             historyIndex := s.historyIndex + 1,
             canvasState := some d }

/-- `DrawingStateManager.undo` on the room record: if `historyIndex > 0`,
decrement it and return (and store) the state at the new index; otherwise
return `null` and leave the room untouched.  The `none` arm of the match
models the out-of-bounds array read `history[historyIndex]`, which never
happens for states satisfying the cursor invariant. -/
def RoomState.undo (s : RoomState) : Option String × RoomState :=
  if 0 < s.historyIndex then
    match s.history.get? (s.historyIndex - 1).toNat with
    | some e => (e.state, { s with historyIndex := s.historyIndex - 1,
                                   canvasState := e.state })
    | none => (none, { s with historyIndex := s.historyIndex - 1,
                              canvasState := none })
  else (none, s)

/-- `DrawingStateManager.redo` on the room record: mirror of `undo`, guarded
by `historyIndex < history.length - 1`. -/
def RoomState.redo (s : RoomState) : Option String × RoomState :=
  if s.historyIndex < (s.history.length : Int) - 1 then
    match s.history.get? (s.historyIndex + 1).toNat with
    | some e => (e.state, { s with historyIndex := s.historyIndex + 1,
                                   canvasState := e.state })
    | none => (none, { s with historyIndex := s.historyIndex + 1,
                              canvasState := none })
  else (none, s)

/-- `DrawingStateManager.clearCanvas` on the room record: empty the
drawings, null the canvas state, push `{state: null, timestamp,
type: 'clear'}` and increment the index.  (The source performs no redo
prune and no size cap here.) -/
def RoomState.clearCanvas (s : RoomState) (now : Nat) : RoomState :=
  { s with drawings := [],
           canvasState := none,
           history := s.history ++ [clearEntry now],
           historyIndex := s.historyIndex + 1 }

/-- `DrawingStateManager.addDrawing` on the room record: push the drawing
(with generated id and timestamp), then if the log exceeds
`2 * maxHistorySize` keep only the last `maxHistorySize` entries
(`drawings.slice(-maxHistorySize)`). -/
def RoomState.addDrawing (s : RoomState) (uid : String)
    (path : Option (List String)) (rid : String) (now : Nat) : RoomState :=
  if (s.drawings ++ [Drawing.mk uid path rid now]).length >
      2 * maxHistorySize then
    { s with drawings :=
        List.drop ((s.drawings ++ [Drawing.mk uid path rid now]).length -
          maxHistorySize) (s.drawings ++ [Drawing.mk uid path rid now]) }
  else
    { s with drawings := s.drawings ++ [Drawing.mk uid path rid now] }

/-- Association-list lookup, modelling `Map.prototype.get`. -/
def alookup {β : Type} : List (String × β) → String → Option β
  | [], _ => none
  | (k, v) :: rest, key => if k = key then some v else alookup rest key

/-- Replace the value stored under `rid`, modelling the in-place mutation of
the room record fetched from the manager's `Map`. -/
def updateRoomState (m : List (String × RoomState)) (rid : String)
    (r : RoomState) : List (String × RoomState) :=
  m.map (fun p => if p.1 = rid then (p.1, r) else p)

/-- The `DrawingStateManager.rooms` map. -/
abbrev DSM := List (String × RoomState)

/-- `DrawingStateManager.initRoom`: create the room record on first
reference (a new `Map` key is appended in insertion order). -/
def DrawingStateManager.initRoom (m : DSM) (rid : String) (now : Nat) : DSM :=
  match alookup m rid with
  | some _ => m
  | none => m ++ [(rid, initRoomState now)]

/-- `DrawingStateManager.setCanvasState` at the manager level. -/
def DrawingStateManager.setCanvasState (m : DSM) (rid : String) (d : String)
    (now : Nat) : DSM :=
  match alookup (DrawingStateManager.initRoom m rid now) rid with
  | some room =>
      updateRoomState (DrawingStateManager.initRoom m rid now) rid
        (room.setCanvasState d now)
  | none => DrawingStateManager.initRoom m rid now

/-- `DrawingStateManager.undo` at the manager level: `rooms.get` without
auto-vivification, returning `null` for a missing room. -/
def DrawingStateManager.undo (m : DSM) (rid : String) : Option String × DSM :=
  match alookup m rid with
  | none => (none, m)
  | some room => ((room.undo).1, updateRoomState m rid (room.undo).2)

/-- `DrawingStateManager.redo` at the manager level. -/
def DrawingStateManager.redo (m : DSM) (rid : String) : Option String × DSM :=
  match alookup m rid with
  | none => (none, m)
  | some room => ((room.redo).1, updateRoomState m rid (room.redo).2)

/-- State after `setCanvasState("r1", "A")` on an empty manager. -/
def c1s1 : DSM := DrawingStateManager.setCanvasState [] "r1" "A" 1

/-- State after the further `setCanvasState("r1", "B")`. -/
def c1s2 : DSM := DrawingStateManager.setCanvasState c1s1 "r1" "B" 2

/-- Result of the `undo("r1")` call in the scenario. -/
def c1u : Option String × DSM := DrawingStateManager.undo c1s2 "r1"

/-- State after the `setCanvasState("r1", "C")` following the undo. -/
def c1s4 : DSM := DrawingStateManager.setCanvasState c1u.2 "r1" "C" 3

/-- Result of the final `redo("r1")` call in the scenario. -/
def c1r : Option String × DSM := DrawingStateManager.redo c1s4 "r1"

/-- The cursor invariant of the History Store: the index stays in
`[-1, history.length)` and is `-1` exactly when the history is empty. -/
abbrev CursorInv (s : RoomState) : Prop :=
  -1 ≤ s.historyIndex ∧ s.historyIndex < (s.history.length : Int) ∧
  (s.historyIndex = -1 ↔ s.history.length = 0)

/-- The current-snapshot invariant: the stored canvas state is the state
field of the history entry at the cursor (`none` when the history is
empty). -/
abbrev SnapshotContract (s : RoomState) : Prop :=
  s.canvasState =
    (s.history.get? s.historyIndex.toNat).bind HistoryEntry.state

/-- Room states reachable by any sequence of History Store operations. -/
inductive Reachable : RoomState → Prop
  | init (now : Nat) : Reachable (initRoomState now)
  | set {s : RoomState} (d : String) (now : Nat) (h : Reachable s) :
      Reachable (s.setCanvasState d now)
  | undoStep {s : RoomState} (h : Reachable s) : Reachable (s.undo).2
  | redoStep {s : RoomState} (h : Reachable s) : Reachable (s.redo).2
  | clearStep {s : RoomState} (now : Nat) (h : Reachable s) :
      Reachable (s.clearCanvas now)
  | drawStep {s : RoomState} (uid : String) (path : Option (List String))
      (rid : String) (now : Nat) (h : Reachable s) :
      Reachable (s.addDrawing uid path rid now)

/-- Room states reachable without `clearCanvas` (the operation that skips
the prune and cap logic). -/
inductive ReachableNC : RoomState → Prop
  | init (now : Nat) : ReachableNC (initRoomState now)
  | set {s : RoomState} (d : String) (now : Nat) (h : ReachableNC s) :
      ReachableNC (s.setCanvasState d now)
  | undoStep {s : RoomState} (h : ReachableNC s) : ReachableNC (s.undo).2
  | redoStep {s : RoomState} (h : ReachableNC s) : ReachableNC (s.redo).2
  | drawStep {s : RoomState} (uid : String) (path : Option (List String))
      (rid : String) (now : Nat) (h : ReachableNC s) :
      ReachableNC (s.addDrawing uid path rid now)

/-- The bounded-history contract of a room state: the history is within the
cap now, stays within it across any `setCanvasState`, and when an insertion
would exceed the cap the oldest entry is shifted off while the cursor comes
back down by one. -/
abbrev BoundedHistoryContract (s : RoomState) : Prop :=
  s.history.length ≤ maxHistorySize ∧
  ∀ d now, (s.setCanvasState d now).history.length ≤ maxHistorySize ∧
    (maxHistorySize < (pruneRedo s).length + 1 →
      (s.setCanvasState d now).history =
        (pruneRedo s ++ [newEntry d now]).tail ∧
      (s.setCanvasState d now).historyIndex = s.historyIndex + 1 - 1)

/-- The undo/redo contract of a room state: undo moves the cursor back and
returns the entry state now at the cursor exactly when the cursor is
positive, and is a null-returning no-op at cursor `0` or on an empty
history; redo is the mirror, guarded by `cursor < length - 1`. -/
abbrev UndoRedoContract (s : RoomState) : Prop :=
  (0 < s.historyIndex →
    ∃ e, s.history.get? (s.historyIndex - 1).toNat = some e ∧
      s.undo = (e.state, { s with historyIndex := s.historyIndex - 1,
                                  canvasState := e.state })) ∧
  (s.historyIndex = 0 ∨ s.history = [] → s.undo = (none, s)) ∧
  (s.historyIndex < (s.history.length : Int) - 1 →
    ∃ e, s.history.get? (s.historyIndex + 1).toNat = some e ∧
      s.redo = (e.state, { s with historyIndex := s.historyIndex + 1,
                                  canvasState := e.state })) ∧
  ((s.history.length : Int) - 1 ≤ s.historyIndex → s.redo = (none, s))

/-- `n` successive `clearCanvas` calls on a fresh room. -/
def iterClear : Nat → RoomState
  | 0 => initRoomState 0
  | n + 1 => (iterClear n).clearCanvas 0

/-- Commit A, commit B, then undo: cursor `0` over history `[A, B]`. -/
def c4base : RoomState :=
  ((((initRoomState 0).setCanvasState "A" 1).setCanvasState "B" 2).undo).2

/-- `c4base` followed by `clearCanvas`: the clear-marker lands after the
stale redo branch. -/
def c3state : RoomState := c4base.clearCanvas 3

/-- Concrete invariant-satisfying room used to witness the undo/redo
contract. -/
def c7state : RoomState :=
  ((initRoomState 0).setCanvasState "A" 1).setCanvasState "B" 2

/-- Inbound client events handled by the router in `server.js`.  Payload
fields are `Option`s: `none` models a missing (`undefined`) field.  Opaque
payload contents (points, path elements, snapshot blobs) are strings. -/
inductive InEvent
  | drawStart (point : Option String)
  | drawMove (points : Option (List String))
  | drawEnd (path : Option (List String))
  | cursorMove (x : Option Int) (y : Option Int)
  | undoEv (canvasState : Option String)
  | redoEv (canvasState : Option String)
  | clearCanvasEv
  | pingEv
deriving DecidableEq

/-- Outbound events emitted by the router, with the fields the handlers
attach. -/
inductive OutEvent
  | drawStart (userId : String) (point : Option String) (timestamp : Nat)
  | drawMove (userId : String) (points : Option (List String))
      (timestamp : Nat)
  | drawEnd (userId : String) (path : Option (List String)) (timestamp : Nat)
  | cursorMove (userId : String) (x : Option Int) (y : Option Int)
  | undoEv (userId : String) (canvasState : Option String)
  | redoEv (userId : String) (canvasState : Option String)
  | clearCanvasEv
  | pong
deriving DecidableEq

/-- The audience of an emission: `socket.emit` (sender only),
`socket.to(roomId).emit` (room minus sender), `io.to(roomId).emit`
(whole room). -/
inductive Audience
  | senderOnly
  | roomExceptSender
  | wholeRoom
deriving DecidableEq

/-- JavaScript truthiness of an optional string field: `undefined`, `null`
and the empty string are falsy. -/
def jsTruthy : Option String → Bool
  | none => false
  | some str => !str.isEmpty

/-- The socket event handlers of `server.js` as a step function on the
room's drawing state: given the sender id, the inbound event, the current
time, the generated drawing id and the room state, produce the updated
room state and the emissions with their audience.  Mirrors the handlers:
draw events echo to the room minus the sender (`draw-end` also records the
operation), `undo`/`redo` commit the client snapshot only when it is truthy
but always broadcast to the whole room, `clear-canvas` clears and
broadcasts to the whole room, and `ping` answers the sender with `pong`. -/
def routerStep (uid : String) (ev : InEvent) (now : Nat) (rid : String)
    (s : RoomState) : RoomState × List (Audience × OutEvent) :=
  match ev with
  | .drawStart p => (s, [(.roomExceptSender, .drawStart uid p now)])
  | .drawMove ps => (s, [(.roomExceptSender, .drawMove uid ps now)])
  | .drawEnd path =>
      (s.addDrawing uid path rid now,
       [(.roomExceptSender, .drawEnd uid path now)])
  | .cursorMove x y => (s, [(.roomExceptSender, .cursorMove uid x y)])
  | .undoEv cs =>
      (if jsTruthy cs then s.setCanvasState (cs.getD "") now else s,
       [(.wholeRoom, .undoEv uid cs)])
  | .redoEv cs =>
      (if jsTruthy cs then s.setCanvasState (cs.getD "") now else s,
       [(.wholeRoom, .redoEv uid cs)])
  | .clearCanvasEv => (s.clearCanvas now, [(.wholeRoom, .clearCanvasEv)])
  | .pingEv => (s, [(.senderOnly, .pong)])

/-- The concrete recipient set of an emission, as a function of the room
membership and the sender. -/
def recipients (a : Audience) (members : List String) (sender : String) :
    List String :=
  match a with
  | .senderOnly => [sender]
  | .roomExceptSender => members.filter (fun m => m ≠ sender)
  | .wholeRoom => members

/-- The event kinds echoed with the sender excluded. -/
def isDrawKind : InEvent → Bool
  | .drawStart _ => true
  | .drawMove _ => true
  | .drawEnd _ => true
  | .cursorMove _ _ => true
  | _ => false

/-- The event kinds broadcast to the whole room including the sender. -/
def isGlobalKind : InEvent → Bool
  | .undoEv _ => true
  | .redoEv _ => true
  | .clearCanvasEv => true
  | _ => false

/-- The fan-out exclusion contract: every emission of a draw-kind event
excludes the sender from its recipient set, and every emission of a
global-kind event reaches the whole room, sender included. -/
abbrev FanoutContract (ev : InEvent) (uid : String) (now : Nat)
    (rid : String) (s : RoomState) (members : List String) : Prop :=
  ∀ em ∈ (routerStep uid ev now rid s).2,
    (isDrawKind ev = true → uid ∉ recipients em.1 members uid) ∧
    (isGlobalKind ev = true → uid ∈ members →
      recipients em.1 members uid = members ∧
      uid ∈ recipients em.1 members uid)

/-- How the router actually treats events with missing payload fields: no
error is ever emitted; `undo`/`redo` with a missing or empty `canvasState`
leave the room state unchanged but still broadcast; `draw-start` with a
missing `point` still broadcasts; `draw-end` with a missing `path` still
records an operation and broadcasts. -/
abbrev MalformedContract (uid : String) (now : Nat) (rid : String)
    (s : RoomState) : Prop :=
  routerStep uid (.undoEv none) now rid s =
    (s, [(.wholeRoom, .undoEv uid none)]) ∧
  routerStep uid (.redoEv none) now rid s =
    (s, [(.wholeRoom, .redoEv uid none)]) ∧
  routerStep uid (.undoEv (some "")) now rid s =
    (s, [(.wholeRoom, .undoEv uid (some ""))]) ∧
  routerStep uid (.drawStart none) now rid s =
    (s, [(.roomExceptSender, .drawStart uid none now)]) ∧
  routerStep uid (.drawEnd none) now rid s =
    (s.addDrawing uid none rid now,
     [(.roomExceptSender, .drawEnd uid none now)])

/-- A user record in `rooms.js`: id, display name, color. -/
structure User where
  id : String
  username : String
  color : String
deriving DecidableEq

/-- A room record in `rooms.js`: id, `users` map, creation time. -/
structure RegistryRoom where
  id : String
  users : List (String × User)
  createdAt : Nat
deriving DecidableEq

/-- The `RoomManager.rooms` map. -/
abbrev RoomManager := List (String × RegistryRoom)

/-- `Map.prototype.delete` on the users map: remove the entry with the
given key. -/
def eraseUserKey (l : List (String × User)) (u : String) :
    List (String × User) :=
  l.filter (fun p => p.1 ≠ u)

/-- Write back the mutated room record under its key. -/
def updateRegistryRoom (rm : RoomManager) (r : String)
    (room2 : RegistryRoom) : RoomManager :=
  rm.map (fun p => if p.1 = r then (p.1, room2) else p)

/-- `RoomManager.removeUser`: returns false without touching anything when
the room or the user is absent; otherwise deletes the user from the room's
map and returns true. -/
def RoomManager.removeUser (rm : RoomManager) (roomId userId : String) :
    Bool × RoomManager :=
  match alookup rm roomId with
  | none => (false, rm)
  | some room =>
      match alookup room.users userId with
      | none => (false, rm)
      | some _ =>
          (true, updateRegistryRoom rm roomId
            { room with users := eraseUserKey room.users userId })

/-- `RoomManager.hasUser`: whether the user is currently a member. -/
def RoomManager.hasUser (rm : RoomManager) (roomId userId : String) : Bool :=
  match alookup rm roomId with
  | none => false
  | some room => (alookup room.users userId).isSome

/-- The leave contract: removal returns true and actually removes the user
when present, is a `(false, unchanged)` no-op when the room or user is
absent, and a second leave in a row is a no-op returning false. -/
abbrev RemoveUserContract (rm : RoomManager) (roomId userId : String) :
    Prop :=
  (RoomManager.hasUser rm roomId userId = true →
    (RoomManager.removeUser rm roomId userId).1 = true ∧
    RoomManager.hasUser (RoomManager.removeUser rm roomId userId).2
      roomId userId = false) ∧
  (RoomManager.hasUser rm roomId userId = false →
    RoomManager.removeUser rm roomId userId = (false, rm)) ∧
  RoomManager.removeUser (RoomManager.removeUser rm roomId userId).2
      roomId userId
    = (false, (RoomManager.removeUser rm roomId userId).2)

/-- A concrete registry with one room and one member, used to witness the
leave contract. -/
def c9rm : RoomManager :=
  [("default",
    { id := "default",
      users := [("u1", { id := "u1", username := "HappyPanda7",
                         color := "#FF6B6B" })],
      createdAt := 0 })]

/-! ### Theorems -/

/-- C1: starting from an empty room, commit A, commit B, undo, commit C,
redo.  The undo returns A, the redo returns null (B was pruned by the
commit of C), and the final room has history exactly `[A, C]` with
`historyIndex = 1`. -/
theorem c1_commit_undo_commit_redo_scenario :
    c1u.1 = some "A" ∧ c1r.1 = none ∧
    alookup c1r.2 "r1" =
      some { canvasState := some "C", drawings := [],
             history := [newEntry "A" 1, newEntry "C" 3],
             historyIndex := 1, createdAt := 1 } := by
  decide

lemma pruneRedo_length_le (s : RoomState) :
    (pruneRedo s).length ≤ s.history.length := by
  unfold pruneRedo jsSliceEnd
  split_ifs <;> simp [List.length_take]

lemma pruneRedo_length_inv (s : RoomState) (h1 : -1 ≤ s.historyIndex)
    (h2 : s.historyIndex < (s.history.length : Int)) :
    ((pruneRedo s).length : Int) = s.historyIndex + 1 := by
  unfold pruneRedo jsSliceEnd
  split_ifs with hc hneg
  · exfalso; omega
  · simp [List.length_take]; omega
  · omega

lemma set_spec (s : RoomState) (d : String) (now : Nat)
    (h1 : -1 ≤ s.historyIndex)
    (h2 : s.historyIndex < (s.history.length : Int)) :
    ∃ l, (s.setCanvasState d now).history = l ++ [newEntry d now] ∧
      (s.setCanvasState d now).historyIndex = (l.length : Int) ∧
      (s.setCanvasState d now).canvasState = some d := by
  have hp := pruneRedo_length_inv s h1 h2
  unfold RoomState.setCanvasState
  split_ifs with hcap
  · rcases hpr : pruneRedo s with _ | ⟨p, ps⟩
    · rw [hpr] at hcap
      simp [maxHistorySize] at hcap
    · refine ⟨ps, rfl, ?_, rfl⟩
      show s.historyIndex + 1 - 1 = (ps.length : Int)
      rw [hpr] at hp
      simp at hp
      omega
  · refine ⟨pruneRedo s, rfl, ?_, rfl⟩
    show s.historyIndex + 1 = ((pruneRedo s).length : Int)
    omega

lemma set_len {s : RoomState} (hlen : s.history.length ≤ maxHistorySize)
    (d : String) (now : Nat) :
    (s.setCanvasState d now).history.length ≤ maxHistorySize := by
  have hp := pruneRedo_length_le s
  unfold RoomState.setCanvasState
  split_ifs with hcap
  · show ((pruneRedo s ++ [newEntry d now]).tail).length ≤ maxHistorySize
    simp [List.length_tail]; omega
  · show (pruneRedo s ++ [newEntry d now]).length ≤ maxHistorySize
    simp at hcap ⊢; omega

lemma inv_init (now : Nat) : CursorInv (initRoomState now) := by
  refine ⟨?_, ?_, ?_⟩ <;> simp [initRoomState]

lemma inv_set {s : RoomState} (h : CursorInv s) (d : String) (now : Nat) :
    CursorInv (s.setCanvasState d now) := by
  obtain ⟨h1, h2, h3⟩ := h
  obtain ⟨l, hh, hi, _⟩ := set_spec s d now h1 h2
  refine ⟨?_, ?_, ?_⟩
  · rw [hi]; omega
  · rw [hi, hh]; simp
  · rw [hi, hh]; simp

lemma undo_stay (s : RoomState) (h : s.historyIndex ≤ 0) :
    s.undo = (none, s) := by
  unfold RoomState.undo
  rw [if_neg (by omega)]

lemma undo_move (s : RoomState) (hpos : 0 < s.historyIndex)
    (hlt : s.historyIndex < (s.history.length : Int)) :
    ∃ e, s.history.get? (s.historyIndex - 1).toNat = some e ∧
      s.undo = (e.state, { s with historyIndex := s.historyIndex - 1,
                                  canvasState := e.state }) := by
  have hb : (s.historyIndex - 1).toNat < s.history.length := by omega
  refine ⟨s.history.get ⟨(s.historyIndex - 1).toNat, hb⟩,
    List.get?_eq_get hb, ?_⟩
  unfold RoomState.undo
  rw [if_pos hpos, List.get?_eq_get hb]

lemma redo_stay (s : RoomState)
    (h : (s.history.length : Int) - 1 ≤ s.historyIndex) :
    s.redo = (none, s) := by
  unfold RoomState.redo
  rw [if_neg (by omega)]

lemma redo_move (s : RoomState) (h1 : -1 ≤ s.historyIndex)
    (hlt : s.historyIndex < (s.history.length : Int) - 1) :
    ∃ e, s.history.get? (s.historyIndex + 1).toNat = some e ∧
      s.redo = (e.state, { s with historyIndex := s.historyIndex + 1,
                                  canvasState := e.state }) := by
  have hb : (s.historyIndex + 1).toNat < s.history.length := by omega
  refine ⟨s.history.get ⟨(s.historyIndex + 1).toNat, hb⟩,
    List.get?_eq_get hb, ?_⟩
  unfold RoomState.redo
  rw [if_pos hlt, List.get?_eq_get hb]

lemma undo_frame (s : RoomState) : (s.undo).2.history = s.history ∧
    (s.undo).2.drawings = s.drawings ∧ (s.undo).2.createdAt = s.createdAt := by
  unfold RoomState.undo
  split_ifs with h
  · rcases hg : s.history.get? (s.historyIndex - 1).toNat with _ | e <;>
      exact ⟨rfl, rfl, rfl⟩
  · exact ⟨rfl, rfl, rfl⟩

lemma redo_frame (s : RoomState) : (s.redo).2.history = s.history ∧
    (s.redo).2.drawings = s.drawings ∧ (s.redo).2.createdAt = s.createdAt := by
  unfold RoomState.redo
  split_ifs with h
  · rcases hg : s.history.get? (s.historyIndex + 1).toNat with _ | e <;>
      exact ⟨rfl, rfl, rfl⟩
  · exact ⟨rfl, rfl, rfl⟩

lemma inv_undo {s : RoomState} (h : CursorInv s) : CursorInv (s.undo).2 := by
  obtain ⟨h1, h2, h3⟩ := h
  rcases le_or_lt s.historyIndex 0 with hle | hpos
  · rw [undo_stay s hle]; exact ⟨h1, h2, h3⟩
  · obtain ⟨e, he, hu⟩ := undo_move s hpos h2
    rw [hu]
    refine ⟨?_, ?_, ?_⟩
    · show -1 ≤ s.historyIndex - 1; omega
    · show s.historyIndex - 1 < (s.history.length : Int); omega
    · show s.historyIndex - 1 = -1 ↔ s.history.length = 0; omega

lemma inv_redo {s : RoomState} (h : CursorInv s) : CursorInv (s.redo).2 := by
  obtain ⟨h1, h2, h3⟩ := h
  rcases le_or_lt ((s.history.length : Int) - 1) s.historyIndex with hge | hlt
  · rw [redo_stay s hge]; exact ⟨h1, h2, h3⟩
  · obtain ⟨e, he, hr⟩ := redo_move s h1 hlt
    rw [hr]
    refine ⟨?_, ?_, ?_⟩
    · show -1 ≤ s.historyIndex + 1; omega
    · show s.historyIndex + 1 < (s.history.length : Int); omega
    · show s.historyIndex + 1 = -1 ↔ s.history.length = 0; omega

lemma inv_clear {s : RoomState} (h : CursorInv s) (now : Nat) :
    CursorInv (s.clearCanvas now) := by
  obtain ⟨h1, h2, h3⟩ := h
  refine ⟨?_, ?_, ?_⟩
  · show -1 ≤ s.historyIndex + 1; omega
  · show s.historyIndex + 1 < ((s.history ++ [clearEntry now]).length : Int)
    simp; omega
  · show s.historyIndex + 1 = -1 ↔ (s.history ++ [clearEntry now]).length = 0
    simp; omega

lemma addDrawing_frame (s : RoomState) (uid : String)
    (path : Option (List String)) (rid : String) (now : Nat) :
    (s.addDrawing uid path rid now).history = s.history ∧
    (s.addDrawing uid path rid now).historyIndex = s.historyIndex ∧
    (s.addDrawing uid path rid now).canvasState = s.canvasState := by
  unfold RoomState.addDrawing
  split_ifs <;> exact ⟨rfl, rfl, rfl⟩

lemma inv_draw {s : RoomState} (h : CursorInv s) (uid : String)
    (path : Option (List String)) (rid : String) (now : Nat) :
    CursorInv (s.addDrawing uid path rid now) := by
  obtain ⟨e1, e2, e3⟩ := addDrawing_frame s uid path rid now
  exact ⟨by rw [e2]; exact h.1, by rw [e2, e1]; exact h.2.1,
         by rw [e2, e1]; exact h.2.2⟩

lemma snap_set {s : RoomState} (h1 : -1 ≤ s.historyIndex)
    (h2 : s.historyIndex < (s.history.length : Int)) (d : String)
    (now : Nat) : SnapshotContract (s.setCanvasState d now) := by
  obtain ⟨l, hh, hi, hc⟩ := set_spec s d now h1 h2
  show (s.setCanvasState d now).canvasState = _
  rw [hc, hh, hi, Int.toNat_natCast, List.get?_concat_length]
  rfl

lemma snap_undo {s : RoomState} (hinv : CursorInv s)
    (hsnap : SnapshotContract s) : SnapshotContract (s.undo).2 := by
  obtain ⟨h1, h2, h3⟩ := hinv
  rcases le_or_lt s.historyIndex 0 with hle | hpos
  · rw [undo_stay s hle]; exact hsnap
  · obtain ⟨e, he, hu⟩ := undo_move s hpos h2
    rw [hu]
    show e.state = (s.history.get? (s.historyIndex - 1).toNat).bind _
    rw [he]
    rfl

lemma snap_redo {s : RoomState} (hinv : CursorInv s)
    (hsnap : SnapshotContract s) : SnapshotContract (s.redo).2 := by
  obtain ⟨h1, h2, h3⟩ := hinv
  rcases le_or_lt ((s.history.length : Int) - 1) s.historyIndex with hge | hlt
  · rw [redo_stay s hge]; exact hsnap
  · obtain ⟨e, he, hr⟩ := redo_move s h1 hlt
    rw [hr]
    show e.state = (s.history.get? (s.historyIndex + 1).toNat).bind _
    rw [he]
    rfl

lemma snap_draw {s : RoomState} (hsnap : SnapshotContract s) (uid : String)
    (path : Option (List String)) (rid : String) (now : Nat) :
    SnapshotContract (s.addDrawing uid path rid now) := by
  obtain ⟨e1, e2, e3⟩ := addDrawing_frame s uid path rid now
  show (s.addDrawing uid path rid now).canvasState = _
  rw [e1, e2, e3]
  exact hsnap

lemma ncMaster {s : RoomState} (h : ReachableNC s) :
    CursorInv s ∧ s.history.length ≤ maxHistorySize ∧ SnapshotContract s := by
  induction h with
  | init now =>
      exact ⟨inv_init now, by simp [initRoomState], by rfl⟩
  | set d now h ih =>
      obtain ⟨hinv, hlen, hsnap⟩ := ih
      exact ⟨inv_set hinv d now, set_len hlen d now,
             snap_set hinv.1 hinv.2.1 d now⟩
  | undoStep h ih =>
      obtain ⟨hinv, hlen, hsnap⟩ := ih
      exact ⟨inv_undo hinv, by rw [(undo_frame _).1]; exact hlen,
             snap_undo hinv hsnap⟩
  | redoStep h ih =>
      obtain ⟨hinv, hlen, hsnap⟩ := ih
      exact ⟨inv_redo hinv, by rw [(redo_frame _).1]; exact hlen,
             snap_redo hinv hsnap⟩
  | drawStep uid path rid now h ih =>
      obtain ⟨hinv, hlen, hsnap⟩ := ih
      exact ⟨inv_draw hinv uid path rid now,
             by rw [(addDrawing_frame _ uid path rid now).1]; exact hlen,
             snap_draw hsnap uid path rid now⟩

/-- C6: for every reachable room state the cursor satisfies
`-1 ≤ historyCursor < history.length`, and it is `-1` exactly when the
history is empty. -/
theorem c6_cursor_bounds {s : RoomState} (h : Reachable s) : CursorInv s := by
  induction h with
  | init now => exact inv_init now
  | set d now h ih => exact inv_set ih d now
  | undoStep h ih => exact inv_undo ih
  | redoStep h ih => exact inv_redo ih
  | clearStep now h ih => exact inv_clear ih now
  | drawStep uid path rid now h ih => exact inv_draw ih uid path rid now

/-- C6 witness: the cursor invariant at a concrete reachable state. -/
theorem c6_cursor_bounds_witness : CursorInv ((initRoomState 0).clearCanvas 5) :=
  c6_cursor_bounds (Reachable.clearStep 5 (Reachable.init 0))

/-- C2 (amended): over `setCanvasState`/`undo`/`redo`/`addDrawing` the
history length never exceeds `maxHistorySize = 100`, and a `setCanvasState`
whose insertion would exceed the cap shifts off the oldest entry and moves
the incremented cursor back down by one.  (`clearCanvas` is excluded: it
appends without capping, see the counterexample.) -/
theorem c2_bounded_history {s : RoomState} (h : ReachableNC s) :
    BoundedHistoryContract s := by
  obtain ⟨hinv, hlen, _⟩ := ncMaster h
  refine ⟨hlen, fun d now => ⟨set_len hlen d now, fun hev => ?_⟩⟩
  unfold RoomState.setCanvasState
  rw [if_pos (by simp; omega)]
  exact ⟨rfl, rfl⟩

/-- C2 witness: the bounded-history contract at a concrete reachable
state. -/
theorem c2_bounded_history_witness :
    BoundedHistoryContract ((initRoomState 0).setCanvasState "A" 1) :=
  c2_bounded_history (ReachableNC.set "A" 1 (ReachableNC.init 0))

/-- C2 counterexample: 101 successive `clearCanvas` calls are a reachable
sequence of History Store operations after which the history holds 101
entries, so the `length ≤ 100` bound fails as claimed over all
operations. -/
theorem c2_history_overflow :
    Reachable (iterClear 101) ∧
    maxHistorySize < (iterClear 101).history.length := by
  have hreach : ∀ n, Reachable (iterClear n) := by
    intro n
    induction n with
    | zero => exact Reachable.init 0
    | succ n ih => exact Reachable.clearStep 0 ih
  have hlen : ∀ n, (iterClear n).history.length = n := by
    intro n
    induction n with
    | zero => rfl
    | succ n ih =>
        show ((iterClear n).history ++ [clearEntry 0]).length = n + 1
        simp [ih]
  exact ⟨hreach 101, by rw [hlen 101]; norm_num [maxHistorySize]⟩

/-- C3 (amended): over `setCanvasState`/`undo`/`redo`/`addDrawing` the
stored canvas state equals the state of the history entry at the cursor
(`none` when the history is empty).  (`clearCanvas` is excluded: it nulls
the canvas state without pruning, see the counterexample.) -/
theorem c3_current_snapshot {s : RoomState} (h : ReachableNC s) :
    SnapshotContract s :=
  (ncMaster h).2.2

/-- C3 witness: the snapshot contract at a concrete reachable state. -/
theorem c3_current_snapshot_witness :
    SnapshotContract ((initRoomState 0).setCanvasState "A" 1) :=
  c3_current_snapshot (ReachableNC.set "A" 1 (ReachableNC.init 0))

/-- C3 counterexample: commit A, commit B, undo, clearCanvas is reachable;
afterwards the stored canvas state is `none` while the entry at the cursor
(index 1) is the ordinary B entry - not a clear-marker and with a non-null
snapshot - so the claimed invariant fails once `clearCanvas` is involved. -/
theorem c3_stale_cursor_entry :
    Reachable c3state ∧ c3state.canvasState = none ∧
    c3state.historyIndex = 1 ∧
    c3state.history.get? 1 = some (newEntry "B" 2) := by
  refine ⟨?_, by decide, by decide, by decide⟩
  exact Reachable.clearStep 3 (Reachable.undoStep
    (Reachable.set "B" 2 (Reachable.set "A" 1 (Reachable.init 0))))

/-- C4 (amended): `clearCanvas` nulls the canvas state, empties the
drawings log, appends a clear-marker entry and increments the cursor, but
performs no redo-branch prune and no cap at `maxHistorySize`: the previous
history survives in full and the length always grows by one. -/
theorem c4_clear_canvas_spec (s : RoomState) (now : Nat) :
    (s.clearCanvas now).canvasState = none ∧
    (s.clearCanvas now).drawings = [] ∧
    (s.clearCanvas now).history = s.history ++ [clearEntry now] ∧
    (s.clearCanvas now).historyIndex = s.historyIndex + 1 ∧
    (s.clearCanvas now).history.length = s.history.length + 1 := by
  refine ⟨rfl, rfl, rfl, rfl, ?_⟩
  show (s.history ++ [clearEntry now]).length = s.history.length + 1
  simp

/-- C4 counterexample: with cursor 0 over history `[A, B]` (not at the
end), `clearCanvas` keeps the stale B entry and grows the history to 3
entries, instead of discarding the redo branch as the claimed shared
prune/append/cap logic would. -/
theorem c4_no_prune_on_clear :
    c4base.historyIndex = 0 ∧ c4base.history.length = 2 ∧
    (c4base.clearCanvas 3).history.length = 3 ∧
    (c4base.clearCanvas 3).history.get? 1 = some (newEntry "B" 2) := by
  decide

/-- C7: undo decrements the cursor and returns the snapshot now at the
cursor when the cursor is positive, and returns null leaving the state
unchanged at cursor 0 or on an empty history; redo mirrors this with the
`cursor < length - 1` guard. -/
theorem c7_undo_redo {s : RoomState} (h : CursorInv s) : UndoRedoContract s := by
  obtain ⟨h1, h2, h3⟩ := h
  refine ⟨fun hpos => undo_move s hpos h2, fun hc => ?_,
          fun hlt => redo_move s h1 hlt, fun hge => redo_stay s hge⟩
  rcases hc with hc | hc
  · exact undo_stay s (by omega)
  · refine undo_stay s ?_
    rw [hc] at h2
    simp at h2
    omega

/-- C7 witness: the undo/redo contract at a concrete invariant-satisfying
state. -/
theorem c7_undo_redo_witness : CursorInv c7state ∧ UndoRedoContract c7state :=
  ⟨by decide, c7_undo_redo (by decide)⟩

/-- C10: undo and redo leave the history array and the drawings log (and
the creation time) unchanged whether or not the cursor moves; only
`historyIndex` and `canvasState` can change. -/
theorem c10_undo_redo_frame (s : RoomState) :
    (s.undo).2.history = s.history ∧ (s.undo).2.drawings = s.drawings ∧
    (s.undo).2.createdAt = s.createdAt ∧
    (s.redo).2.history = s.history ∧ (s.redo).2.drawings = s.drawings ∧
    (s.redo).2.createdAt = s.createdAt := by
  obtain ⟨a, b, c⟩ := undo_frame s
  obtain ⟨d, e, f⟩ := redo_frame s
  exact ⟨a, b, c, d, e, f⟩

/-- C8: draw-start/draw-move/draw-end/cursor-move emissions never include
the originating connection in their recipient set, while undo/redo/
clear-canvas emissions go to the whole room including the sender. -/
theorem c8_fanout_exclusion (ev : InEvent) (uid : String) (now : Nat)
    (rid : String) (s : RoomState) (members : List String) :
    FanoutContract ev uid now rid s members := by
  intro em hem
  cases ev <;> simp [routerStep] at hem <;> subst hem <;>
    exact ⟨fun hd => by first
        | exact Bool.noConfusion hd
        | simp [recipients],
      fun hg hm => by first
        | exact Bool.noConfusion hg
        | exact ⟨rfl, hm⟩⟩

/-- C8 witness: a concrete undo event with the sender among the room
members reaches the whole room, sender included. -/
theorem c8_fanout_exclusion_witness :
    (Audience.wholeRoom, OutEvent.undoEv "u" (some "S")) ∈
      (routerStep "u" (InEvent.undoEv (some "S")) 0 "default"
        (initRoomState 0)).2 ∧
    ("u" ∈ (["u", "v"] : List String) ∧
      recipients Audience.wholeRoom ["u", "v"] "u" = ["u", "v"] ∧
      "u" ∈ recipients Audience.wholeRoom ["u", "v"] "u") :=
  ⟨by decide, by decide,
   (c8_fanout_exclusion (InEvent.undoEv (some "S")) "u" 0 "default"
      (initRoomState 0) ["u", "v"]
      (Audience.wholeRoom, OutEvent.undoEv "u" (some "S")) (by decide)).2
    rfl (by decide)⟩

/-- C5 counterexample: an undo event with the required `canvasState` field
missing is not dropped - the router still fans out an undo event (with the
absent field passed through) to the whole room, so the emission list is
not empty. -/
theorem c5_malformed_undo_still_broadcast :
    (routerStep "u" (InEvent.undoEv none) 0 "default"
        (initRoomState 0)).2 =
      [(Audience.wholeRoom, OutEvent.undoEv "u" none)] ∧
    (routerStep "u" (InEvent.undoEv none) 0 "default"
        (initRoomState 0)).2 ≠ [] := by
  decide

/-- C5 (amended): events with missing required fields are not rejected: no
error event exists or is sent, undo/redo with a missing or empty
`canvasState` leave the history store unmutated yet still broadcast to the
whole room, draw-start with a missing point still broadcasts to the room
minus the sender, and draw-end with a missing path still records an
operation and broadcasts. -/
theorem c5_malformed_handling (uid : String) (now : Nat) (rid : String)
    (s : RoomState) : MalformedContract uid now rid s :=
  ⟨rfl, rfl, rfl, rfl, rfl⟩

lemma alookup_erase (l : List (String × User)) (u : String) :
    alookup (eraseUserKey l u) u = none := by
  induction l with
  | nil => rfl
  | cons p rest ih =>
      by_cases h : p.1 = u
      · simpa [eraseUserKey, List.filter_cons, h] using ih
      · simpa [eraseUserKey, List.filter_cons, h, alookup] using ih

lemma alookup_update (rm : RoomManager) (r : String) (room2 : RegistryRoom) :
    alookup (updateRegistryRoom rm r room2) r =
      (alookup rm r).map (fun _ => room2) := by
  induction rm with
  | nil => rfl
  | cons p rest ih =>
      obtain ⟨k, v⟩ := p
      by_cases h : k = r
      · subst h
        simp only [updateRegistryRoom, List.map_cons]
        simp [alookup]
      · simp only [updateRegistryRoom, List.map_cons] at ih ⊢
        rw [show (if (k, v).1 = r then ((k, v).1, room2) else (k, v))
              = (k, v) from if_neg h]
        simp only [alookup, if_neg h]
        exact ih

/-- C9: leave removes the member and returns true when present, is a
false-returning no-op when the room or the user is absent, and in
particular a second leave in a row returns false and leaves the registry
unchanged. -/
theorem c9_remove_user (rm : RoomManager) (roomId userId : String) :
    RemoveUserContract rm roomId userId := by
  rcases h1 : alookup rm roomId with _ | room
  · have hu : RoomManager.hasUser rm roomId userId = false := by
      simp [RoomManager.hasUser, h1]
    have hr : RoomManager.removeUser rm roomId userId = (false, rm) := by
      simp [RoomManager.removeUser, h1]
    exact ⟨fun hc => absurd hc (by simp [hu]), fun _ => hr,
           by rw [hr]; exact hr⟩
  · rcases h2 : alookup room.users userId with _ | usr
    · have hu : RoomManager.hasUser rm roomId userId = false := by
        simp [RoomManager.hasUser, h1, h2]
      have hr : RoomManager.removeUser rm roomId userId = (false, rm) := by
        simp [RoomManager.removeUser, h1, h2]
      exact ⟨fun hc => absurd hc (by simp [hu]), fun _ => hr,
             by rw [hr]; exact hr⟩
    · have hu : RoomManager.hasUser rm roomId userId = true := by
        simp [RoomManager.hasUser, h1, h2]
      have hr : RoomManager.removeUser rm roomId userId =
          (true, updateRegistryRoom rm roomId
            { room with users := eraseUserKey room.users userId }) := by
        simp [RoomManager.removeUser, h1, h2]
      have h3 : alookup (updateRegistryRoom rm roomId
          { room with users := eraseUserKey room.users userId }) roomId =
          some { room with users := eraseUserKey room.users userId } := by
        rw [alookup_update, h1]
        rfl
      have h4 : alookup (eraseUserKey room.users userId) userId = none :=
        alookup_erase room.users userId
      refine ⟨fun _ => ⟨by rw [hr], ?_⟩,
              fun hc => absurd hu (by simp [hc]), ?_⟩
      · rw [hr]
        simp [RoomManager.hasUser, h3, h4]
      · rw [hr]
        show RoomManager.removeUser (updateRegistryRoom rm roomId
          { room with users := eraseUserKey room.users userId })
            roomId userId = _
        simp [RoomManager.removeUser, h3, h4]

/-- C9 witness: the leave contract on a concrete one-room one-member
registry - the first leave succeeds and removes the member. -/
theorem c9_remove_user_witness :
    RoomManager.hasUser c9rm "default" "u1" = true ∧
    (RoomManager.removeUser c9rm "default" "u1").1 = true ∧
    RoomManager.hasUser (RoomManager.removeUser c9rm "default" "u1").2
      "default" "u1" = false := by
  refine ⟨by decide, ?_, ?_⟩
  · exact ((c9_remove_user c9rm "default" "u1").1 (by decide)).1
  · exact ((c9_remove_user c9rm "default" "u1").1 (by decide)).2
